import Mathlib

/-!
Shallow embedding of `src/generator.ts` (arkit diagram generator):
component rendering, connection resolution, relationship compilation,
skin/direction selection, export conversion effects, and the shared
remote-request chain.
-/

namespace Arkit

/-- Layer identifier: either the `EMPTY_LAYER` sentinel (a `Symbol` in the
source `types.ts`) or a named layer (a string key). -/
inductive LayerId
  | empty
  | named (s : String)
deriving DecidableEq

/-- The `EMPTY_LAYER` sentinel from `types.ts`. -/
def EMPTY_LAYER : LayerId := LayerId.empty

/-- Rendering context enum from `types.ts`. -/
inductive Context
  | LAYER
  | RELATIONSHIP
deriving DecidableEq

/-- A component of the dependency graph (`types.ts`). -/
structure Component where
  name : String
  filename : String
  layer : LayerId
  isImported : Bool
  imports : List String
deriving DecidableEq

/-- Layers map: ordered association of layer ids to component sets
(iteration order of the source `Map`/`Set` is list order here). -/
def Layers := List (LayerId × List Component)

/-- JS `\w` word-character class: ASCII alphanumeric or underscore. -/
def wordChar (c : Char) : Bool := c.isAlphanum || c == '_'

/-- `component.name.replace(/[^\w]/g, '_')` from `generatePlantUMLComponent`. -/
def sanitize (s : String) : String :=
  String.mk (s.toList.map (fun c => if wordChar c then c else '_'))

/-- `component.filename.endsWith('**')`. -/
def isDirectoryC (c : Component) : Bool :=
  match c.filename.toList.reverse with
  | '*' :: '*' :: _ => true
  | _ => false

/-- `generatePlantUMLComponent` from `generator.ts` lines 83-109. -/
def generatePlantUMLComponent (component : Component) (context : Context) : String :=
  let safeName := sanitize component.name
  if isDirectoryC component then
    "[" ++ component.name ++ "]"
  else if component.layer ≠ EMPTY_LAYER then
    "(" ++ component.name ++ ")"
  else if context = Context.RELATIONSHIP then
    safeName
  else
    "rectangle \"" ++ (if component.isImported then "" else "<b>")
      ++ component.name
      ++ (if component.isImported then "" else "</b>")
      ++ "\" as " ++ safeName

/-- Does `pat` occur starting at the head of `l`? -/
def startsWithL (pat l : List Char) : Bool :=
  match pat, l with
  | [], _ => true
  | _ :: _, [] => false
  | p :: ps, c :: cs => p == c && startsWithL ps cs

/-- Does `pat` occur anywhere in `l` (substring search)? -/
def containsL (pat : List Char) : List Char → Bool
  | [] => startsWithL pat []
  | c :: cs => startsWithL pat (c :: cs) || containsL pat cs

/-- Substring occurrence on strings. -/
def strContains (pat s : String) : Bool := containsL pat.toList s.toList

example : generatePlantUMLComponent ⟨"a.b", "a.b", EMPTY_LAYER, false, []⟩
    Context.RELATIONSHIP = "a_b" := by decide

example : generatePlantUMLComponent ⟨"x", "x.ts", LayerId.named "api", false, []⟩
    Context.LAYER = "(x)" := by decide

example : generatePlantUMLComponent ⟨"x", "x.ts", EMPTY_LAYER, false, []⟩
    Context.LAYER = "rectangle \"<b>x</b>\" as x" := by decide

example : generatePlantUMLComponent ⟨"x", "x.ts", EMPTY_LAYER, true, []⟩
    Context.LAYER = "rectangle \"x\" as x" := by decide

/-! ### Path helpers (Node `path` posix semantics, on char lists) -/

/-- `s.split(sep)` for a single-character separator. -/
def splitChar (sep : Char) : List Char → List (List Char)
  | [] => [[]]
  | c :: cs =>
    let r := splitChar sep cs
    if c == sep then [] :: r
    else
      match r with
      | [] => [[c]]
      | h :: t => (c :: h) :: t

/-- Path segments: split on `/`, dropping empty segments. -/
def pathSegs (p : List Char) : List (List Char) :=
  (splitChar '/' p).filter (fun s => !s.isEmpty)

/-- Drop the longest common prefix of two segment lists, returning both
remainders. -/
def dropCommon : List (List Char) → List (List Char) → List (List Char) × List (List Char)
  | a :: as, b :: bs => if a == b then dropCommon as bs else (a :: as, b :: bs)
  | as, bs => (as, bs)

/-- `path.relative(f, t)` for relative `..`-free inputs resolved against a
common working directory: drop the shared leading segments, then go up once
per remaining `f` segment and down the remaining `t` segments. -/
def pathRelative (f t : List Char) : List Char :=
  let ft := dropCommon (pathSegs f) (pathSegs t)
  List.intercalate ['/'] (List.replicate ft.1.length ['.', '.'] ++ ft.2)

/-- `path.dirname(p)` for a relative path: drop the last `/`-segment; with no
separator (or the empty path) the result is `.`. -/
def pathDirname (p : List Char) : List Char :=
  match splitChar '/' p with
  | [] => ['.']
  | [_] => ['.']
  | s => List.intercalate ['/'] s.dropLast

/-! ### Connection resolver -/

/-- `getConnectionLength` from `generator.ts` lines 139-148:
`dirname(relative(C.filename, T.filename)).split(sep).length`, floored by 2
when the source is import-only (else 1) and capped at 4. -/
def getConnectionLength (component importedComponent : Component) : Nat :=
  let numberOfLevels :=
    (splitChar '/'
      (pathDirname (pathRelative component.filename.toList importedComponent.filename.toList))).length
  max (if component.isImported then 2 else 1) (min 4 numberOfLevels)

/-- `getConnectionSign` from `generator.ts` lines 150-154. -/
def getConnectionSign (component importedComponent : Component) : String :=
  if !component.isImported then "="
  else if component.layer == importedComponent.layer && component.layer != EMPTY_LAYER then "."
  else "-"

/-- `sign.repeat(n)` (JS `String.prototype.repeat`). -/
def repeatStr (s : String) (n : Nat) : String :=
  String.join (List.replicate n s)

/-- Modelled from the spec: `getAllComponents` lives in `generator.base.ts`
(not in `src/`). Per the spec it returns the full flattened component set of
the diagram, "components across all layers". -/
def getAllComponents (layers : Layers) : List Component :=
  (layers.map Prod.snd).flatten

/-- Modelled from the spec: the variant used by the relationship compiler
(`getAllComponents(layers, true)`), the flattened set "de-duplicated"
(first occurrence by filename kept; per the stated invariant filenames are
unique, so this agrees with plain flattening on well-formed inputs). -/
def getAllComponentsDedup (layers : Layers) : List Component :=
  (getAllComponents layers).foldl
    (fun acc c => if acc.any (fun d => d.filename == c.filename) then acc else acc ++ [c]) []

/-- `generatePlantUMLRelationships` from `generator.ts` lines 111-137. -/
def generatePlantUMLRelationships (layers : Layers) : String :=
  let components := getAllComponentsDedup layers
  let lines := components.flatMap (fun component =>
    component.imports.filterMap (fun importedFilename =>
      match components.find? (fun importedComponent =>
          importedComponent.filename == importedFilename) with
      | none => none
      | some importedComponent =>
        let connectionLength := getConnectionLength component importedComponent
        let connectionSign := getConnectionSign component importedComponent
        let connection := repeatStr connectionSign connectionLength ++ ">"
        some (String.intercalate " "
          [generatePlantUMLComponent component Context.RELATIONSHIP,
           connection,
           generatePlantUMLComponent importedComponent Context.RELATIONSHIP])))
  String.intercalate "\n" ("" :: lines)

example : pathRelative "a/b.ts".toList "a/c.ts".toList = "../c.ts".toList := by decide
example : pathDirname "../c.ts".toList = "..".toList := by decide
example :
    getConnectionLength ⟨"a/b.ts", "a/b.ts", EMPTY_LAYER, false, ["a/c.ts"]⟩
      ⟨"a/c.ts", "a/c.ts", EMPTY_LAYER, false, []⟩ = 1 := by decide
example :
    generatePlantUMLRelationships
      [(EMPTY_LAYER,
        [⟨"a/b.ts", "a/b.ts", EMPTY_LAYER, false, ["a/c.ts"]⟩,
         ⟨"a/c.ts", "a/c.ts", EMPTY_LAYER, false, []⟩])]
      = "\na_b_ts => a_c_ts" := by decide

/-! ### Skin / direction -/

/-- `OutputDirection` from `schema.ts` (values `'horizontal'`/`'vertical'`,
both truthy as JS strings). -/
inductive OutputDirection
  | horizontal
  | vertical
deriving DecidableEq

/-- The direction computation of `generatePlantUMLSkin` (`generator.ts` lines
164-167). The source reads
`output.direction || this.getAllComponents(layers).length > 20 ? HORIZONTAL : VERTICAL`;
JS `||` binds tighter than `?:`, so the condition is the disjunction of
"an explicit direction is present (truthy)" and "count > 20". -/
def skinDirection (outputDirection : Option OutputDirection) (layers : Layers) :
    OutputDirection :=
  if outputDirection.isSome || decide ((getAllComponents layers).length > 20) then
    OutputDirection.horizontal
  else
    OutputDirection.vertical

/-- `generatePlantUMLSkinParams` (`generator.ts` lines 180-209), a constant. -/
def generatePlantUMLSkinParams : String :=
  "\nskinparam monochrome true\nskinparam shadowing false\nskinparam nodesep 20\nskinparam ranksep 20\nskinparam defaultFontName Tahoma\nskinparam defaultFontSize 12\nskinparam roundCorner 4\nskinparam dpi 150\nskinparam arrowThickness 0.7\nskinparam packageTitleAlignment left\n\n' oval\nskinparam usecase \x7b\n  borderThickness 0.4\n  fontSize 12\n\x7d\n\n' rectangle\nskinparam rectangle \x7b\n  borderThickness 0.8\n\x7d\n\n' component\nskinparam component \x7b\n  borderThickness 1.2\n\x7d\n"

/-- `generatePlantUMLSkin` from `generator.ts` lines 159-178. -/
def generatePlantUMLSkin (outputDirection : Option OutputDirection) (layers : Layers) :
    String :=
  let directionLine :=
    if skinDirection outputDirection layers = OutputDirection.horizontal then
      "left to right direction"
    else
      "top to bottom direction"
  String.intercalate "\n" ["", "scale max 1920 width", directionLine, generatePlantUMLSkinParams]

/-! ### Remote conversion: format token and request path -/

/-- Is there a 3-word-character match at the head of `l`
(the candidate the regex engine tests at one position)? -/
def tripleAt : List Char → Option (List Char)
  | a :: b :: c :: _ =>
    if wordChar a && wordChar b && wordChar c then some [a, b, c] else none
  | _ => none

/-- `format.match(/\w{3}/)`: the leftmost run of three consecutive word
characters, scanning positions left to right. -/
def firstTriple : List Char → Option (List Char)
  | [] => none
  | a :: rest =>
    match tripleAt (a :: rest) with
    | some t => some t
    | none => firstTriple rest

/-- Result of submitting one conversion to `convertToImage`
(`generator.ts` lines 246-260): either the caller promise is rejected
synchronously (bad format, nothing queued), or a request with the given
path is appended to the shared chain and the caller promise stays pending. -/
inductive SubmitStatus
  | rejected (msg : String)
  | queued
deriving DecidableEq

/-- The synchronous part of `convertToImage`: given the current shared
request chain (the list of request paths already queued, in submission
order) and the format string, return the new chain and what happened to the
caller promise at submission time. -/
def convertToImageSubmit (chain : List String) (format : String) :
    List String × SubmitStatus :=
  match firstTriple format.toList with
  | none => (chain, SubmitStatus.rejected ("Cannot identify image format from " ++ format))
  | some t => (chain ++ [String.mk ('/' :: t)], SubmitStatus.queued)

/-! ### The queued continuation: then/catch effects -/

/-- Outcome of one settled remote `request` call: the response bytes, or a
transport error. -/
abbrev ReqOutcome := Except String (List Nat)

/-- Settled state of a promise in the chain: fulfilled, or failed with an
error message. -/
inductive ChainOutcome
  | fulfilled
  | failed (e : String)
deriving DecidableEq

/-- Observable effects of running one queued continuation
`request(path, puml).then(result => resolve(result)).catch(err => debug(err))`
(`generator.ts` lines 254-258) once the underlying request settles. -/
structure TaskEffects where
  resolvedWith : Option (List Nat)
  rejectedWith : Option String
  logged : Option String
  chainOutcome : ChainOutcome
deriving DecidableEq

/-- Run the queued continuation on a settled request outcome.
`.then(result => resolve(result))` calls the caller's `resolve` on success
and passes an error through; `.catch(err => debug(err))` logs the error and
returns a fulfilled promise (the handler returns `undefined`), so the chain
outcome is success either way. The caller's `reject` is not referenced in
the continuation at all. -/
def runQueuedTask (reqOutcome : ReqOutcome) : TaskEffects :=
  let afterThen : Option (List Nat) × ChainOutcome :=
    match reqOutcome with
    | Except.ok b => (some b, ChainOutcome.fulfilled)
    | Except.error e => (none, ChainOutcome.failed e)
  let afterCatch : Option String × ChainOutcome :=
    match afterThen.2 with
    | ChainOutcome.fulfilled => (none, ChainOutcome.fulfilled)
    | ChainOutcome.failed e => (some e, ChainOutcome.fulfilled)
  { resolvedWith := afterThen.1
    rejectedWith := none
    logged := afterCatch.1
    chainOutcome := afterCatch.2 }

example : skinDirection (some OutputDirection.vertical) [] = OutputDirection.horizontal := by
  decide
example : convertToImageSubmit [] ".jpeg" = (["/jpe"], SubmitStatus.queued) := by decide
example : convertToImageSubmit [] "webp" = (["/web"], SubmitStatus.queued) := by decide
example : (convertToImageSubmit ["/svg"] "!!").2
    = SubmitStatus.rejected "Cannot identify image format from !!" := by decide
example : runQueuedTask (Except.error "ECONNRESET")
    = ⟨none, none, some "ECONNRESET", ChainOutcome.fulfilled⟩ := by decide

/-! ### Export: `convert` filesystem effects -/

/-- Modelled from the spec: the `OutputFormat` enum values live in
`schema.ts` (not in `src/`); per the spec they are the "known raster/vector
image format" names. The `.puml` diagram-source extension is handled
separately in `convert` and is not among them. -/
def outputFormats : List String := ["png", "svg"]

/-- Node `path.extname` on a posix path: the suffix of the basename from its
last `.`, empty when the basename has no dot or starts with its only dot. -/
def extnameL (p : List Char) : List Char :=
  let base := (splitChar '/' p).getLastD []
  let r := base.reverse
  match r.findIdx? (fun c => c == '.') with
  | none => []
  | some i => if i + 1 == r.length then [] else '.' :: (r.take i).reverse

/-- `path.resolve(directory, p)` for an absolute base directory and a
normalized relative `p` (the shapes the generator passes): an absolute `p`
wins, otherwise join with `/`. -/
def pathResolve (directory p : String) : String :=
  match p.toList with
  | '/' :: _ => p
  | _ => directory ++ "/" ++ p

/-- JS `ext.replace('.', '')`: remove the first `.` only. -/
def replaceFirstDot : List Char → List Char
  | [] => []
  | c :: cs => if c == '.' then cs else c :: replaceFirstDot cs

/-- `fullExportPath` of `convert` (`generator.ts` line 212). -/
def fullExportPathOf (directory pathOrType : String) : String :=
  pathResolve directory pathOrType

/-- `ext` of `convert` (`generator.ts` line 213). -/
def extOf (directory pathOrType : String) : String :=
  String.mk (extnameL (fullExportPathOf directory pathOrType).toList)

/-- `shouldConvertAndSave` of `convert` (`generator.ts` line 214). -/
def shouldConvertAndSave (directory pathOrType : String) : Bool :=
  outputFormats.contains (String.mk (replaceFirstDot (extOf directory pathOrType).toList))

/-- `shouldConvertAndOutput` of `convert` (`generator.ts` line 215). -/
def shouldConvertAndOutput (pathOrType : String) : Bool :=
  outputFormats.contains pathOrType

/-- Filesystem / network effect counts of one `convert` call. -/
structure ConvertEffects where
  deletes : Nat
  writes : Nat
  remoteCalls : Nat
deriving DecidableEq

/-- Effects model of `convert` (`generator.ts` lines 211-242). `fileExists`
is the oracle for `fs.existsSync(fullExportPath)`; `remoteResolves` says
whether the queued remote conversion for this request eventually resolves
(when it does not, the `.then` save callback never runs — see
`runQueuedTask`). Note the delete happens before the branch on destination
kind, so it is performed for every destination whenever a file exists at the
resolved path. -/
def convert (directory pathOrType : String) (fileExists remoteResolves : Bool) :
    ConvertEffects :=
  let deletes := if fileExists then 1 else 0
  if shouldConvertAndSave directory pathOrType || shouldConvertAndOutput pathOrType then
    { deletes := deletes
      writes := if shouldConvertAndSave directory pathOrType && remoteResolves then 1 else 0
      remoteCalls := 1 }
  else
    { deletes := deletes
      writes := if extOf directory pathOrType == ".puml" then 1 else 0
      remoteCalls := 0 }

example : convert "/base" "arch.svg" true true = ⟨1, 1, 1⟩ := by decide
example : convert "/base" "arch.puml" true true = ⟨1, 1, 0⟩ := by decide
example : convert "/base" "svg" true true = ⟨1, 0, 1⟩ := by decide
example : convert "/base" "notes.txt" true true = ⟨1, 0, 0⟩ := by decide
example : convert "/base" "notes.txt" false true = ⟨0, 0, 0⟩ := by decide

/-! ### The shared request chain as a scheduler

`requestChain` (`generator.ts` line 244) is a single promise reference;
`convertToImage` appends each accepted request as a continuation with
`this.requestChain = this.requestChain.then(...)`. Event-loop semantics of
continuation chaining: a queued request can start only when no earlier
request is still pending (the chain head must have settled), and requests
are taken in append (submission) order. The scheduler below is that
semantics made explicit; `inFlight` is an `Option` because a continuation
runs only after its predecessor settles. -/

/-- Scheduler state of the shared request chain: requests queued but not
started, the request currently in flight (at most one, by chaining), and
the requests already completed, in completion order. -/
structure QueueState where
  queuedReqs : List Nat
  inFlight : Option Nat
  done : List Nat
deriving DecidableEq

/-- Events the event loop can process: a new submission (chain append),
starting the next queued request, or completion of the in-flight request. -/
inductive QAction
  | submit (r : Nat)
  | start
  | finish
deriving DecidableEq

/-- One scheduler step; `none` when the event is not enabled (starting while
a request is in flight, or finishing with none in flight). -/
def qstep (s : QueueState) : QAction → Option QueueState
  | QAction.submit r => some ⟨s.queuedReqs ++ [r], s.inFlight, s.done⟩
  | QAction.start =>
    match s.inFlight, s.queuedReqs with
    | none, r :: rest => some ⟨rest, some r, s.done⟩
    | _, _ => none
  | QAction.finish =>
    match s.inFlight with
    | some r => some ⟨s.queuedReqs, none, s.done ++ [r]⟩
    | none => none

/-- Run a sequence of scheduler events. -/
def qrun (s : QueueState) : List QAction → Option QueueState
  | [] => some s
  | a :: as =>
    match qstep s a with
    | some s2 => qrun s2 as
    | none => none

/-- The requests submitted by an event sequence, in submission order. -/
def submittedReqs : List QAction → List Nat
  | [] => []
  | QAction.submit r :: as => r :: submittedReqs as
  | _ :: as => submittedReqs as

/-- The in-flight request as a list (empty or singleton). -/
def inFlightList : Option Nat → List Nat
  | none => []
  | some r => [r]

example :
    qrun ⟨[], none, []⟩
      [QAction.submit 1, QAction.submit 2, QAction.start, QAction.finish,
       QAction.start, QAction.finish]
      = some ⟨[], none, [1, 2]⟩ := by decide

/-! ### Helper lemmas -/

theorem containsL_head_mem {p : Char} {ps l : List Char}
    (h : containsL (p :: ps) l = true) : p ∈ l := by
  induction l with
  | nil => simp [containsL, startsWithL] at h
  | cons c cs ih =>
    simp only [containsL, Bool.or_eq_true] at h
    rcases h with h | h
    · simp only [startsWithL, Bool.and_eq_true, beq_iff_eq] at h
      exact h.1 ▸ List.mem_cons_self c cs
    · exact List.mem_cons_of_mem c (ih h)

theorem containsL_eq_false_of_head_not_mem {p : Char} {ps l : List Char}
    (h : p ∉ l) : containsL (p :: ps) l = false := by
  cases hc : containsL (p :: ps) l with
  | false => rfl
  | true => exact absurd (containsL_head_mem hc) h

theorem startsWithL_self_append (pat l : List Char) :
    startsWithL pat (pat ++ l) = true := by
  induction pat with
  | nil => rfl
  | cons p ps ih => simp [startsWithL, ih]

theorem containsL_append_of_right {pat l : List Char} (l0 : List Char)
    (h : containsL pat l = true) : containsL pat (l0 ++ l) = true := by
  induction l0 with
  | nil => simpa using h
  | cons c cs ih => simp [containsL, ih]

theorem containsL_pat_append (pat l : List Char) :
    containsL pat (pat ++ l) = true := by
  cases pat with
  | nil =>
    cases l with
    | nil => rfl
    | cons c cs => simp [containsL, startsWithL]
  | cons p ps =>
    have h := startsWithL_self_append (p :: ps) l
    simp only [List.cons_append] at h ⊢
    simp [containsL, h]

theorem lt_not_mem_sanitize (s : String) : '<' ∉ (sanitize s).toList := by
  intro h
  simp only [sanitize, String.toList, String.mk, List.mem_map] at h
  rcases h with ⟨c, _, hc⟩
  by_cases hw : wordChar c = true
  · rw [if_pos hw] at hc; subst hc; simp [wordChar] at hw
  · rw [if_neg hw] at hc; exact absurd hc (by decide)

/-! ### Claim theorems -/

/-- C1: the skin block's direction at the failing input. An output with an
explicit `vertical` direction still renders `left to right direction`
(horizontal): in the source the ternary condition is the whole disjunction
`output.direction || count > 20`, so any explicit direction forces
horizontal. The inference branch itself behaves as claimed: with no
explicit direction, 21 flattened components give horizontal and 20 give
vertical. -/
theorem c1_explicit_vertical_gives_horizontal :
    skinDirection (some OutputDirection.vertical)
        [(EMPTY_LAYER, [⟨"x", "x.ts", EMPTY_LAYER, false, []⟩])]
      = OutputDirection.horizontal ∧
    strContains "left to right direction"
        (generatePlantUMLSkin (some OutputDirection.vertical)
          [(EMPTY_LAYER, [⟨"x", "x.ts", EMPTY_LAYER, false, []⟩])]) = true ∧
    skinDirection none
        [(EMPTY_LAYER, List.replicate 21 ⟨"x", "x.ts", EMPTY_LAYER, false, []⟩)]
      = OutputDirection.horizontal ∧
    skinDirection none
        [(EMPTY_LAYER, List.replicate 20 ⟨"x", "x.ts", EMPTY_LAYER, false, []⟩)]
      = OutputDirection.vertical := by decide

/-- C2: when a queued remote request fails, the failure is logged at the
queue level, the shared chain's outcome is fulfilled (so subsequent queued
requests still run), and the caller's promise is neither resolved nor
rejected in that path. -/
theorem c2_queued_failure_swallowed (e : String) :
    runQueuedTask (Except.error e)
      = { resolvedWith := none, rejectedWith := none, logged := some e,
          chainOutcome := ChainOutcome.fulfilled } := rfl

/-- C3: the connector length is always in `[1, 4]`, and in `[2, 4]` whenever
the source component is import-only. -/
theorem c3_connection_length_bounds (component importedComponent : Component) :
    1 ≤ getConnectionLength component importedComponent ∧
    getConnectionLength component importedComponent ≤ 4 ∧
    (component.isImported = true →
      2 ≤ getConnectionLength component importedComponent) := by
  unfold getConnectionLength
  cases component.isImported <;> simp

/-- C3 witness: the import-only lower bound at a concrete pair. -/
theorem c3_connection_length_bounds_witness :
    2 ≤ getConnectionLength ⟨"i", "i.ts", EMPTY_LAYER, true, ["t.ts"]⟩
          ⟨"t", "t.ts", EMPTY_LAYER, false, []⟩ :=
  (c3_connection_length_bounds _ _).2.2 (by decide)

/-- The two-component layer map of the spec's worked example for C5. -/
def c5Layers : Layers :=
  [(EMPTY_LAYER,
    [⟨"a/b.ts", "a/b.ts", EMPTY_LAYER, false, ["a/c.ts"]⟩,
     ⟨"a/c.ts", "a/c.ts", EMPTY_LAYER, false, []⟩])]

/-- C5 counterexample: on the spec's worked example the relationships block
is exactly one connector line `a_b_ts => a_c_ts` (sanitized identifiers and
the glyph repeated once, i.e. `=>`); it does not contain the claimed token
`a/b.ts ==> a/c.ts`. -/
theorem c5_example_token_counterexample :
    generatePlantUMLRelationships c5Layers = "\na_b_ts => a_c_ts" ∧
    strContains "a/b.ts ==> a/c.ts" (generatePlantUMLRelationships c5Layers) = false := by
  decide

/-- C5 amended: on the worked example the single connector has length 1 and
glyph `=`, and the full rendered line is `a_b_ts => a_c_ts` (sanitized
identifier, glyph repeated once, arrowhead). -/
theorem c5_example_rendering :
    getConnectionLength ⟨"a/b.ts", "a/b.ts", EMPTY_LAYER, false, ["a/c.ts"]⟩
        ⟨"a/c.ts", "a/c.ts", EMPTY_LAYER, false, []⟩ = 1 ∧
    getConnectionSign ⟨"a/b.ts", "a/b.ts", EMPTY_LAYER, false, ["a/c.ts"]⟩
        ⟨"a/c.ts", "a/c.ts", EMPTY_LAYER, false, []⟩ = "=" ∧
    generatePlantUMLRelationships c5Layers = "\na_b_ts => a_c_ts" := by decide

/-- C9: the sanitized-identifier mapping used in RELATIONSHIP context is not
injective: the ungrouped, non-directory components named `a.b` and `a-b`
render to the same RELATIONSHIP token `a_b`. -/
theorem c9_relationship_token_collision :
    (Component.mk "a.b" "a.b" EMPTY_LAYER false []).name
      ≠ (Component.mk "a-b" "a-b" EMPTY_LAYER false []).name ∧
    isDirectoryC (Component.mk "a.b" "a.b" EMPTY_LAYER false []) = false ∧
    isDirectoryC (Component.mk "a-b" "a-b" EMPTY_LAYER false []) = false ∧
    (Component.mk "a.b" "a.b" EMPTY_LAYER false []).layer = EMPTY_LAYER ∧
    (Component.mk "a-b" "a-b" EMPTY_LAYER false []).layer = EMPTY_LAYER ∧
    generatePlantUMLComponent (Component.mk "a.b" "a.b" EMPTY_LAYER false [])
        Context.RELATIONSHIP
      = generatePlantUMLComponent (Component.mk "a-b" "a-b" EMPTY_LAYER false [])
          Context.RELATIONSHIP := by decide

/-- C4 counterexample: a non-imported component sitting in a named layer
renders in LAYER context as `(x)` — no emphasized label — so the claimed
"regardless of the component's layer" fails. -/
theorem c4_layered_component_unemphasized :
    (Component.mk "x" "x.ts" (LayerId.named "api") false []).isImported = false ∧
    generatePlantUMLComponent (Component.mk "x" "x.ts" (LayerId.named "api") false [])
        Context.LAYER = "(x)" ∧
    strContains "<b>"
      (generatePlantUMLComponent (Component.mk "x" "x.ts" (LayerId.named "api") false [])
        Context.LAYER) = false := by decide

theorem containsL_of_eq_append (pat l l1 l2 : List Char)
    (h : l = l1 ++ (pat ++ l2)) : containsL pat l = true :=
  h ▸ containsL_append_of_right l1 (containsL_pat_append pat l2)

/-- C4 amended: for non-directory components whose display name contains no
`<`, the LAYER-context declaration token contains the bold markup `<b>`
exactly when the component is in EMPTY_LAYER and not import-only; a
component in a named layer never renders emphasis. -/
theorem c4_bold_iff_primary (c : Component) (hdir : isDirectoryC c = false)
    (hname : '<' ∉ c.name.toList) :
    (c.layer = EMPTY_LAYER →
      (strContains "<b>" (generatePlantUMLComponent c Context.LAYER) = true
        ↔ c.isImported = false)) ∧
    (c.layer ≠ EMPTY_LAYER →
      strContains "<b>" (generatePlantUMLComponent c Context.LAYER) = false) := by
  have hname2 : '<' ∉ c.name.data := hname
  have hsan : '<' ∉ (sanitize c.name).data := lt_not_mem_sanitize c.name
  constructor
  · intro hl
    unfold generatePlantUMLComponent
    rw [hdir, hl]
    cases hi : c.isImported with
    | false =>
      simp only [reduceIte]
      constructor
      · intro _; trivial
      · intro _
        unfold strContains
        exact containsL_of_eq_append "<b>".data _ "rectangle \"".data
          (c.name.data ++ ("</b>".data ++ ("\" as ".data ++ (sanitize c.name).data)))
          (by simp [String.toList, String.data_append, List.append_assoc])
    | true =>
      simp only [reduceIte]
      constructor
      · intro hcon
        exfalso
        unfold strContains at hcon
        have hmem := containsL_head_mem hcon
        simp only [String.toList, String.data_append, List.nil_append,
          List.mem_append] at hmem
        simp [hname2, hsan] at hmem
      · intro h; exact absurd h (by decide)
  · intro hl
    unfold generatePlantUMLComponent
    rw [hdir]
    simp only [reduceIte, if_pos hl]
    apply containsL_eq_false_of_head_not_mem
    intro hmem
    simp only [String.toList, String.data_append, List.mem_append] at hmem
    simp [hname2] at hmem

/-- C4 witness: the amended theorem at concrete components — bold for a
primary EMPTY_LAYER component, and no bold for a component in a named
layer. -/
theorem c4_bold_iff_primary_witness :
    (strContains "<b>"
        (generatePlantUMLComponent (Component.mk "x" "x.ts" EMPTY_LAYER false [])
          Context.LAYER) = true
      ↔ (Component.mk "x" "x.ts" EMPTY_LAYER false []).isImported = false) ∧
    strContains "<b>"
        (generatePlantUMLComponent (Component.mk "y" "y.ts" (LayerId.named "api") true [])
          Context.LAYER) = false :=
  ⟨(c4_bold_iff_primary (Component.mk "x" "x.ts" EMPTY_LAYER false [])
      (by decide) (by decide)).1 rfl,
   (c4_bold_iff_primary (Component.mk "y" "y.ts" (LayerId.named "api") true [])
      (by decide) (by decide)).2 (by decide)⟩

/-- C6 counterexample: exporting to an unrecognized destination
(`notes.txt`) at which a file already exists performs one delete and no
write: in the source the `existsSync`/`unlinkSync` block precedes the
destination-kind branch, so the delete also happens for raw-text-only
destinations, contradicting the claim's "no delete". -/
theorem c6_raw_text_destination_still_deletes :
    shouldConvertAndSave "/base" "notes.txt" = false ∧
    shouldConvertAndOutput "notes.txt" = false ∧
    extOf "/base" "notes.txt" ≠ ".puml" ∧
    convert "/base" "notes.txt" true true = ⟨1, 0, 0⟩ := by decide

/-- C6 amended: with a file present at the resolved path, every `convert`
call performs exactly one delete, regardless of destination kind; it then
performs exactly one write for image-path destinations whose remote
conversion resolves and for `.puml` destinations, and no write for bare
image keywords or unrecognized destinations. -/
theorem c6_delete_and_write_effects (directory pathOrType : String)
    (remoteResolves : Bool) :
    (convert directory pathOrType true remoteResolves).deletes = 1 ∧
    (shouldConvertAndSave directory pathOrType = true → remoteResolves = true →
      (convert directory pathOrType true remoteResolves).writes = 1) ∧
    (shouldConvertAndSave directory pathOrType = false →
      shouldConvertAndOutput pathOrType = false →
      extOf directory pathOrType = ".puml" →
      (convert directory pathOrType true remoteResolves).writes = 1) ∧
    (shouldConvertAndSave directory pathOrType = false →
      extOf directory pathOrType ≠ ".puml" →
      (convert directory pathOrType true remoteResolves).writes = 0) := by
  by_cases he : extOf directory pathOrType = ".puml" <;>
    cases hs : shouldConvertAndSave directory pathOrType <;>
      cases ho : shouldConvertAndOutput pathOrType <;>
        cases remoteResolves <;>
          simp [convert, hs, ho, he]

/-- C6 witness: the amended theorem at an unrecognized destination with an
existing file — one delete, zero writes. -/
theorem c6_delete_and_write_effects_witness :
    (convert "/base" "notes.txt" true true).deletes = 1 ∧
    (convert "/base" "notes.txt" true true).writes = 0 :=
  ⟨(c6_delete_and_write_effects "/base" "notes.txt" true).1,
   (c6_delete_and_write_effects "/base" "notes.txt" true).2.2.2 (by decide) (by decide)⟩

/-- C7: a format string with no 3-letter word-character run makes
`convertToImageSubmit` reject synchronously with the chain unchanged; a
format containing such a run is appended to the chain instead of being
rejected. -/
theorem c7_reject_before_queue (chain : List String) (format : String) :
    (firstTriple format.toList = none →
      convertToImageSubmit chain format
        = (chain, SubmitStatus.rejected
            ("Cannot identify image format from " ++ format))) ∧
    (∀ t, firstTriple format.toList = some t →
      convertToImageSubmit chain format
        = (chain ++ [String.mk ('/' :: t)], SubmitStatus.queued)) := by
  constructor
  · intro h
    have h2 : firstTriple format.data = none := h
    simp [convertToImageSubmit, h2]
  · intro t h
    have h2 : firstTriple format.data = some t := h
    simp [convertToImageSubmit, h2]

/-- C7 witness: a rejected format leaves a concrete chain untouched, and an
accepted format is appended to it. -/
theorem c7_reject_before_queue_witness :
    convertToImageSubmit ["/svg"] "!!"
      = (["/svg"], SubmitStatus.rejected
          ("Cannot identify image format from " ++ "!!")) ∧
    convertToImageSubmit ["/svg"] "png"
      = (["/svg"] ++ [String.mk ('/' :: ['p', 'n', 'g'])], SubmitStatus.queued) :=
  ⟨(c7_reject_before_queue ["/svg"] "!!").1 (by decide),
   (c7_reject_before_queue ["/svg"] "png").2 ['p', 'n', 'g'] (by decide)⟩

/-- Invariant of the request-chain scheduler: completed requests, then the
in-flight request, then the still-queued requests, is exactly the
submission sequence. -/
theorem qrun_invariant (as : List QAction) (s0 s : QueueState)
    (h : qrun s0 as = some s) :
    s.done ++ (inFlightList s.inFlight ++ s.queuedReqs)
      = s0.done ++ (inFlightList s0.inFlight ++ (s0.queuedReqs ++ submittedReqs as)) := by
  induction as generalizing s0 with
  | nil =>
    simp only [qrun] at h
    injection h with h
    subst h
    simp [submittedReqs]
  | cons a as ih =>
    cases a with
    | submit r =>
      simp only [qrun, qstep] at h
      have hinv := ih _ h
      simp only [submittedReqs] at hinv ⊢
      simp at hinv
      simp [hinv]
    | start =>
      simp only [qrun] at h
      cases hf : s0.inFlight with
      | some r => simp [qstep, hf] at h
      | none =>
        cases hq : s0.queuedReqs with
        | nil => simp [qstep, hf, hq] at h
        | cons r rest =>
          rw [show qstep s0 QAction.start = some ⟨rest, some r, s0.done⟩ by
            simp [qstep, hf, hq]] at h
          simp only at h
          have hinv := ih _ h
          simp only [submittedReqs] at hinv ⊢
          simp [inFlightList, hf, hq] at hinv ⊢
          simpa using hinv
    | finish =>
      simp only [qrun] at h
      cases hf : s0.inFlight with
      | none => simp [qstep, hf] at h
      | some r =>
        rw [show qstep s0 QAction.finish = some ⟨s0.queuedReqs, none, s0.done ++ [r]⟩ by
          simp [qstep, hf]] at h
        simp only at h
        have hinv := ih _ h
        simp only [submittedReqs] at hinv ⊢
        simp [inFlightList, hf] at hinv ⊢
        simpa using hinv

/-- C8: along any valid event sequence of the shared request chain started
from the empty chain, the requests already issued (completed ones followed
by the at-most-one in-flight request) form a prefix of the submission
sequence — remote calls are started one at a time, in FIFO submission
order. -/
theorem c8_fifo_single_flight (as : List QAction) (s : QueueState)
    (h : qrun ⟨[], none, []⟩ as = some s) :
    (∃ rest, s.done ++ (inFlightList s.inFlight ++ rest) = submittedReqs as) ∧
    (inFlightList s.inFlight).length ≤ 1 := by
  refine ⟨⟨s.queuedReqs, ?_⟩, ?_⟩
  · have hinv := qrun_invariant as ⟨[], none, []⟩ s h
    simpa [inFlightList] using hinv
  · cases s.inFlight <;> simp [inFlightList]

/-- A sample interleaving: three submissions, with the third arriving while
the second request is in flight. -/
def sampleTrace : List QAction :=
  [QAction.submit 1, QAction.submit 2, QAction.start, QAction.finish,
   QAction.start, QAction.submit 3, QAction.finish, QAction.start, QAction.finish]

/-- The scheduler state after running `sampleTrace`. -/
def sampleFinal : QueueState := ⟨[], none, [1, 2, 3]⟩

/-- C8 witness: the FIFO property at the concrete sample trace. -/
theorem c8_fifo_single_flight_witness :
    (∃ rest, sampleFinal.done ++ (inFlightList sampleFinal.inFlight ++ rest)
        = submittedReqs sampleTrace) ∧
    (inFlightList sampleFinal.inFlight).length ≤ 1 :=
  c8_fifo_single_flight sampleTrace sampleFinal (by decide)

/-- A head match of three word characters is the first three characters. -/
theorem tripleAt_eq_take {l t : List Char} (h : tripleAt l = some t) :
    t = l.take 3 := by
  cases l with
  | nil => simp [tripleAt] at h
  | cons a l1 =>
    cases l1 with
    | nil => simp [tripleAt] at h
    | cons b l2 =>
      cases l2 with
      | nil => simp [tripleAt] at h
      | cons c rest =>
        have h2 : (if (wordChar a && wordChar b && wordChar c) = true
            then some [a, b, c] else (none : Option (List Char))) = some t := h
        by_cases hw : (wordChar a && wordChar b && wordChar c) = true
        · rw [if_pos hw] at h2
          injection h2 with h2
          subst h2
          simp
        · rw [if_neg hw] at h2
          exact absurd h2 (by simp)

/-- `firstTriple` returns the leftmost 3-word-character run: the result is
3 consecutive characters at some position, and no earlier position starts
such a run. -/
theorem firstTriple_spec (l t : List Char) (h : firstTriple l = some t) :
    ∃ i, tripleAt (l.drop i) = some t ∧ t = (l.drop i).take 3 ∧
      ∀ j, j < i → tripleAt (l.drop j) = none := by
  induction l generalizing t with
  | nil => simp [firstTriple] at h
  | cons a rest ih =>
    unfold firstTriple at h
    cases ht : tripleAt (a :: rest) with
    | some t0 =>
      rw [ht] at h
      injection h with h
      subst h
      exact ⟨0, ht, tripleAt_eq_take ht, fun j hj => absurd hj (Nat.not_lt_zero j)⟩
    | none =>
      rw [ht] at h
      obtain ⟨i, h1, h2, h3⟩ := ih t h
      refine ⟨i + 1, ?_, ?_, ?_⟩
      · simpa [List.drop_succ_cons] using h1
      · simpa [List.drop_succ_cons] using h2
      · intro j hj
        cases j with
        | zero => simpa using ht
        | succ k => simpa [List.drop_succ_cons] using h3 k (by omega)

/-- C10: for every accepted format string, the queued request path is `/`
followed by exactly the leftmost run of three word characters of the format
string, everything after it discarded. -/
theorem c10_request_path_truncates (chain : List String) (format : String)
    (t : List Char) (h : firstTriple format.toList = some t) :
    convertToImageSubmit chain format
      = (chain ++ [String.mk ('/' :: t)], SubmitStatus.queued) ∧
    ∃ i, t = (format.toList.drop i).take 3 ∧
      tripleAt (format.toList.drop i) = some t ∧
      ∀ j, j < i → tripleAt (format.toList.drop j) = none := by
  constructor
  · have h2 : firstTriple format.data = some t := h
    simp [convertToImageSubmit, h2]
  · obtain ⟨i, h1, h2, h3⟩ := firstTriple_spec format.toList t h
    exact ⟨i, h2, h1, h3⟩

/-- C10 witness: `.jpeg` is truncated to request path `/jpe`. -/
theorem c10_request_path_truncates_witness :
    convertToImageSubmit [] ".jpeg"
      = ([] ++ [String.mk ('/' :: ['j', 'p', 'e'])], SubmitStatus.queued) ∧
    ∃ i, ['j', 'p', 'e'] = (".jpeg".toList.drop i).take 3 ∧
      tripleAt (".jpeg".toList.drop i) = some ['j', 'p', 'e'] ∧
      ∀ j, j < i → tripleAt (".jpeg".toList.drop j) = none :=
  c10_request_path_truncates [] ".jpeg" ['j', 'p', 'e'] (by decide)

end Arkit
